import Mathlib

/-!
Verification of the ETL repository against its specification.

The definitions below are shallow embeddings of the Python sources:

* `stripe_events_dynamodb.py` — `DataHandler.data_summary_insert`;
* `stripe_events_dw_salesforce.py` — `get_all_dynamo_data`, `prep_data` (both
  destinations), and the top-level driver script;
* `ExportControlSaleforcceAccountValidation.py` — `compare_orders_with_screening_list`;
* `ImportJIRADataIntoSalesforce.py` — the site-code dictionary build in `main`;
* `ImportSurveyMonkeyDataIntoSalesforce.py` — `get_survey_monkey_data`;
* `utils/helpers.py` — `MySQLRpts.etl_log`, `MySQLRpts.exec_simple`,
  `MySQLRpts.insert_data`.

External effects (HTTP requests, database cursors, the Stripe SDK) are modelled
by passing their outcomes as explicit arguments; machine floats are modelled by
exact rationals together with an explicit binary round-to-nearest function.
-/

/-- A scalar JSON value as it appears in a DynamoDB stage row after the
`json.dumps`/`json.loads` round-trip in `get_all_dynamo_data`: an explicit JSON
null (Python `None`), a string, or an integer (Stripe money fields are integer
cents; `DecimalEncoder` turns integral decimals into ints). -/
inductive Value where
  | null : Value
  | str (s : String) : Value
  | num (n : ℤ) : Value
deriving DecidableEq, Repr

/-- Python truthiness for the scalar values above (`None` and `''` and `0` are
falsy). Used by `elif x['customer_id']:` in `prep_data`. -/
def Value.truthy : Value → Bool
  | .null => false
  | .str s => s ≠ ""
  | .num n => n ≠ 0

/-- The per-field normalisation `x[y] = None if x[y] == 'null' else x[y]`
performed by `prep_data` on every field of every record. -/
def normValue (v : Value) : Value := if v = .str "null" then .null else v

/-- The normalisation above applied to a field that is a string in the stage
row (`id`, `object`, `customer_id`, `type`). -/
def normStr (s : String) : Value := normValue (Value.str s)

/-- The normalisation applied to the `email` field added by the driver, which
is Python `None` or a string. -/
def normEmail (e : Option String) : Option String :=
  if e = some "null" then none else e

/-- A row of the `stripe_stage` DynamoDB table, exactly the shape written by
`DataHandler.data_summary_insert`: `id`, `created`, `type`,
`object` are always present (an event missing them raises before any row is
written), money fields and `object_event_id` carry a JSON value or the string
sentinel `"null"`, and `customer_id` is either a Stripe customer id or the
sentinel `"null"`. -/
structure StageRecord where
  id : String
  created : ℤ
  type : String
  object : String
  customer_id : String
  amount : Value
  amount_due : Value
  amount_refunded : Value
  object_event_id : Value
deriving DecidableEq, Repr

/-- A stage record after the driver's enrichment loop has attached an `email`
field (`dicts['email'] = get_email(...)`, with Stripe errors caught to `None`). -/
structure EventRecord extends StageRecord where
  email : Option String
deriving DecidableEq, Repr

/-- The enrichment loop of the driver: for records whose `customer_id` differs
from the sentinel `'null'` the Stripe customer email is looked up (`emailLookup`
models `get_email`, with `InvalidRequestError`/`KeyError` mapped to `none`);
otherwise `email` is set to `None`. -/
def enrich_email (emailLookup : String → Option String) (r : StageRecord) : EventRecord :=
  { r with email := if r.customer_id ≠ "null" then emailLookup r.customer_id else none }

/-- Python exception outcomes that the embedded functions can raise. -/
inductive PyErr where
  | keyError (k : String)
  | typeError
deriving DecidableEq, Repr

/-- Dictionary access `d[k]` on a possibly missing key: raises `KeyError` when
the key is absent. -/
def getKey {α : Type} (k : String) : Option α → Except PyErr α
  | some a => .ok a
  | none => .error (.keyError k)

/-- The `try: ... except KeyError: 'null'` pattern of `data_summary_insert`
for a string-valued optional field. -/
def orNullStr : Option String → String
  | some s => s
  | none => "null"

/-- The `try: ... except KeyError: 'null'` pattern of `data_summary_insert`
for a JSON-valued optional field: an absent key becomes the string sentinel
`'null'`, while a present explicit JSON null stays `null`. -/
def orNullVal : Option Value → Value
  | some v => v
  | none => .str "null"

/-- The `data.object` part of a raw Stripe webhook event, with `Option`
distinguishing an absent key from a present value. -/
structure RawObjectPayload where
  object : Option String
  id : Option Value
  amount : Option Value
  amount_due : Option Value
  amount_refunded : Option Value
deriving DecidableEq, Repr

/-- A raw Stripe webhook event as seen by `DataHandler.data_summary_insert`
(after `add_customer_fields` may have added `customer_id`). -/
structure RawEvent where
  id : Option String
  created : Option ℤ
  type : Option String
  customer_id : Option String
  dataObject : Option RawObjectPayload
deriving DecidableEq, Repr

/-- Embedding of `DataHandler.data_summary_insert` from
`stripe_events_dynamodb.py`: the four unguarded accesses (`id`, `created`,
`type`, `data.object.object`) raise `KeyError` when missing, while
`customer_id`, `amount`, `amount_due`, `amount_refunded` and
`data.object.id` are guarded by `try/except KeyError` substituting `'null'`. -/
def data_summary_insert (e : RawEvent) : Except PyErr StageRecord :=
  match e.id with
  | none => .error (.keyError "id")
  | some i =>
    match e.created with
    | none => .error (.keyError "created")
    | some c =>
      match e.type with
      | none => .error (.keyError "type")
      | some t =>
        match e.dataObject with
        | none => .error (.keyError "data")
        | some dobj =>
          match dobj.object with
          | none => .error (.keyError "object")
          | some o =>
            .ok {
              id := i
              created := c
              type := t
              object := o
              customer_id := orNullStr e.customer_id
              amount := orNullVal dobj.amount
              amount_due := orNullVal dobj.amount_due
              amount_refunded := orNullVal dobj.amount_refunded
              object_event_id := orNullVal dobj.id
            }

/-- Python `str.title()` on the space-separated strings produced by
`prep_data` (`'invoice payment succeeded'.title()`): capitalise each
space-separated word. -/
def pyTitle (s : String) : String :=
  String.intercalate " " ((s.splitOn " ").map String.capitalize)

/-- Round-to-nearest for IEEE-754 binary64: the 53-bit significand rounding of
a nonzero rational. Python's `float` arithmetic is correctly rounded binary64,
so `float(x)/100` denotes `roundDouble (roundDouble x / 100)`. For the values
produced by this pipeline (integer cents divided by 100) the scaled value is
never an exact half-integer, so the half-up tie rule of `round` agrees with
IEEE round-half-even. -/
def roundDouble (q : ℚ) : ℚ :=
  if q = 0 then 0
  else
    ((round (q / (2 : ℚ) ^ (Int.log 2 |q| - 52)) : ℤ) : ℚ) * (2 : ℚ) ^ (Int.log 2 |q| - 52)

/-- The money conversion `float(x.pop('amount')) / 100` in the Salesforce
branch of `prep_data`: the integer cent amount is converted to a binary64
float and divided by 100, with no further rounding step. -/
def prepAmount (c : ℤ) : ℚ := roundDouble (roundDouble (c : ℚ) / 100)

/-- Applying `float` to a normalised money field: a number converts, while
`None` (from the `'null'` sentinel or an explicit JSON null) raises
`TypeError`. Money fields in stage rows are JSON numbers or null, never
numeric strings. -/
def prepAmountV : Value → Except PyErr ℚ
  | .num c => .ok (prepAmount c)
  | _ => .error .typeError

/-- A row prepared for `stripe.event_log` by the `destination='mysql'` branch
of `prep_data`. The `event_datetime` formatting (`datetime.fromtimestamp ...
strftime`) and the email hashing (`hashlib.md5`) are external pure functions
passed as `fmt` and `md5`. -/
structure MySQLRow where
  id : Value
  object : Value
  customer_id : Value
  amount : Value
  amount_due : Value
  amount_refunded : Value
  object_event_id : Value
  event_datetime : String
  event_unixtimestamp : ℤ
  event_type : Value
  email : Option String
deriving DecidableEq, Repr

/-- Embedding of the `destination='mysql'` branch of `prep_data`: every field
is null-normalised, `created` is renamed and formatted, `type` is renamed, and
the email is md5-hashed with `TypeError` (md5 of `None`) caught to `None`.
Every input record produces exactly one output row. -/
def prep_data_mysql (md5 : String → String) (fmt : ℤ → String)
    (rows : List EventRecord) : List MySQLRow :=
  rows.map fun x =>
    { id := normStr x.id
      object := normStr x.object
      customer_id := normStr x.customer_id
      amount := normValue x.amount
      amount_due := normValue x.amount_due
      amount_refunded := normValue x.amount_refunded
      object_event_id := normValue x.object_event_id
      event_datetime := fmt x.created
      event_unixtimestamp := x.created
      event_type := normStr x.type
      email := (normEmail x.email).map md5 }

/-- The result of `SalesforceRest.get_sf_contact_id`: a contact `Id` and a
possibly absent or null `AccountId`. -/
structure SFContact where
  id : String
  accountId : Option String
deriving DecidableEq, Repr

/-- A record prepared for the `Skylark_Subscription_Event__c` upsert by the
Salesforce branch of `prep_data`. -/
structure SFRow where
  Contact__c : String
  Event_Date__c : String
  Name : Value
  Event_ID__c : Value
  Event__c : String
  Amount__c : ℚ
  Amount_Due__c : ℚ
  Amount_Refunded__c : ℚ
  Stripe_Customer_ID__c : Value
  Object__c : String
  Object_Event_ID__c : Value
  Account__c : String
deriving DecidableEq, Repr

/-- String methods (`.replace`, `.title`) applied to a normalised field raise
`AttributeError`-like failures on `None`; the embedding reports them as
`typeError`. In practice `type` and `object` are genuine strings. -/
def valueToStr : Value → Except PyErr String
  | .str s => .ok s
  | _ => .error .typeError

/-- Embedding of one iteration of the Salesforce branch of `prep_data`: the
record is dropped when its normalised `customer_id` is falsy or when the
contact lookup (`get_sf_contact_id`, modelled by `contactLookup`) finds no
contact; otherwise the upsert row is built, converting money fields with
`float(...)/100` and formatting `created` with `fmtSF`. -/
def prep_sf_record (contactLookup : Option String → Option SFContact)
    (fmtSF : ℤ → String) (x : EventRecord) : Except PyErr (Option SFRow) :=
  let cid := normStr x.customer_id
  if cid.truthy then
    match contactLookup (normEmail x.email) with
    | none => .ok none
    | some contact => do
      let ev ← valueToStr (normStr x.type)
      let amt ← prepAmountV (normValue x.amount)
      let amtDue ← prepAmountV (normValue x.amount_due)
      let amtRef ← prepAmountV (normValue x.amount_refunded)
      let ob ← valueToStr (normStr x.object)
      .ok (some
        { Contact__c := contact.id
          Event_Date__c := fmtSF x.created
          Name := normStr x.id
          Event_ID__c := normStr x.id
          Event__c := pyTitle ((ev.replace "." " ").replace "_" " ")
          Amount__c := amt
          Amount_Due__c := amtDue
          Amount_Refunded__c := amtRef
          Stripe_Customer_ID__c := cid
          Object__c := pyTitle ob
          Object_Event_ID__c := normValue x.object_event_id
          Account__c := contact.accountId.getD "" })
  else .ok none

/-- Embedding of the `destination='salesforce'` branch of `prep_data` over a
list of records: records are processed in order and dropped records contribute
nothing; an uncaught exception in any record aborts the whole call. -/
def prep_data_salesforce (contactLookup : Option String → Option SFContact)
    (fmtSF : ℤ → String) : List EventRecord → Except PyErr (List SFRow)
  | [] => .ok []
  | x :: xs => do
    let hd ← prep_sf_record contactLookup fmtSF x
    let tl ← prep_data_salesforce contactLookup fmtSF xs
    .ok (hd.toList ++ tl)

/-- Embedding of `get_all_dynamo_data` from `stripe_events_dw_salesforce.py`.
A DynamoDB scan yields a first response (`firstPage`) and, while a
`LastEvaluatedKey` is present, further responses (`laterPages`); the function
collects the later pages into `all_pages` and returns
`all_pages if all_pages else page_1`. The item type is abstract. -/
def get_all_dynamo_data {α : Type} (firstPage : List α) (laterPages : List (List α)) :
    List α :=
  let all_pages := laterPages.flatten
  if all_pages.isEmpty then firstPage else all_pages

/-- One audit-log attempt made by the driver: the optional `max_date` argument
passed to `MySQLRpts.etl_log` (the watermark, as the maximum `created`
timestamp whose `from_unixtime` rendering is inserted). -/
abbrev AuditAttempt := Option ℤ

/-- External outcomes consumed by one run of the Stripe driver script
`stripe_events_dw_salesforce.py`, in program order: the two DynamoDB scans,
the Stripe email lookups, the MySQL and Salesforce write outcomes. Writes
whose Python exceptions are swallowed inside `MySQLRpts` are represented by a
`Bool` success flag; `upsertThrows` models `SalesforceRpts.api_upsert`
re-raising. -/
structure RunInput where
  stageFirst : List StageRecord
  stageLater : List (List StageRecord)
  emailLookup : String → Option String
  md5 : String → String
  fmt : ℤ → String
  fmtSF : ℤ → String
  contactLookup : Option String → Option SFContact
  mysqlInsertOk : Bool
  maxDateQueryOk : Bool
  sfUpsertThrows : Bool
  objFirst : List StageRecord
  objLater : List (List StageRecord)
  objInsertOk : Bool

/-- Outcome of one driver run: the audit-log inserts attempted (in order) and
whether the script ran to completion or died on an uncaught exception. -/
structure RunOutcome where
  auditAttempts : List AuditAttempt
  completed : Bool
deriving DecidableEq, Repr

/-- The maximum `created` timestamp of the fetched records, as computed on
line 152 of the driver: `sorted([dico['created'] for dico in data],
reverse=True)[0]` (the MySQL `from_unixtime` formatting is injective and
monotone, so the integer timestamp stands for the rendered datetime). -/
def maxCreated (data : List EventRecord) : ℤ :=
  match data with
  | [] => 0
  | x :: xs => xs.foldl (fun m r => max m r.created) x.created

/-- Embedding of the top-level script of `stripe_events_dw_salesforce.py`.
Straight-line control flow, in source order:

1. `data = get_all_dynamo_data('stripe_stage')`; when empty, `etl_log` is
   called with no `max_date` and the script exits (lines 50-53);
2. the email-enrichment loop;
3. `prep_data(..., 'mysql')` and `insert_data` (exception swallowed);
4. `max_date` from `get_select_data` — when that query fails it returns
   `None` and the subscript `[0]` raises, aborting the run;
5. `prep_data(..., 'salesforce')`, which may raise, and `api_upsert` when
   `sf_data` is nonempty, which aborts the run when it throws;
6. the `stripe_object_stage` scan; an empty result makes
   `data_obj[0].keys()` raise on line 181, aborting the run; its
   `insert_data` outcome is swallowed;
7. the final `etl_log(..., max_date=max_date)` (line 212). -/
def runStripeSync (inp : RunInput) : RunOutcome :=
  let data0 := get_all_dynamo_data inp.stageFirst inp.stageLater
  if data0.isEmpty then
    { auditAttempts := [(none : Option ℤ)], completed := true }
  else
    let data := data0.map (enrich_email inp.emailLookup)
    -- mysql insert: outcome inp.mysqlInsertOk is swallowed by insert_data
    if ¬ inp.maxDateQueryOk then
      { auditAttempts := [], completed := false }
    else
      let max_date := maxCreated data
      match prep_data_salesforce inp.contactLookup inp.fmtSF data with
      | .error _ => { auditAttempts := [], completed := false }
      | .ok sf_data =>
        if ¬ sf_data.isEmpty ∧ inp.sfUpsertThrows then
          { auditAttempts := [], completed := false }
        else
          let data_obj := get_all_dynamo_data inp.objFirst inp.objLater
          if data_obj.isEmpty then
            { auditAttempts := [], completed := false }
          else
            { auditAttempts := [(some max_date : Option ℤ)], completed := true }

/-- The records of a run whose write to a sink was confirmed successful,
represented by their event timestamps: the MySQL event rows when the
`executemany` committed, the Salesforce upsert rows when the upsert was
performed without throwing, and the raw object rows when their insert
committed. A swallowed failure contributes nothing. -/
def writtenTimestamps (inp : RunInput) : List ℤ :=
  let data0 := get_all_dynamo_data inp.stageFirst inp.stageLater
  if data0.isEmpty then []
  else
    let data := data0.map (enrich_email inp.emailLookup)
    let mysqlPart :=
      if inp.mysqlInsertOk then
        (prep_data_mysql inp.md5 inp.fmt data).map (fun r => r.event_unixtimestamp)
      else []
    let sfPart :=
      match prep_data_salesforce inp.contactLookup inp.fmtSF data with
      | .error _ => []
      | .ok sf_data =>
        if ¬ sf_data.isEmpty ∧ ¬ inp.sfUpsertThrows then
          (data.filter fun x =>
            ((prep_sf_record inp.contactLookup inp.fmtSF x).toOption.join).isSome).map
            (fun r => r.created)
        else []
    let objPart :=
      if inp.objInsertOk then
        (get_all_dynamo_data inp.objFirst inp.objLater).map (fun r => r.created)
      else []
    mysqlPart ++ sfPart ++ objPart

/-! Embedding of `compare_orders_with_screening_list` from
`ExportControlSaleforcceAccountValidation.py`. The fuzzy scorer
(`fuzz.token_sort_ratio`) is an external pure function passed as `score`;
`process.extract` is `heapq.nlargest(5, ...)` over the scored choices, which
by the Python documentation is a stable descending sort truncated to five. -/

/-- Descending comparison on scored candidates: `a` may precede `b` when the
score of `b` is at most the score of `a`. Insertion sort with this relation is
the stable descending sort performed by `heapq.nlargest`. -/
def scoreGE (a b : String × ℕ) : Prop := b.2 ≤ a.2

instance : DecidableRel scoreGE := fun a b => Nat.decLe b.2 a.2

instance : IsTotal (String × ℕ) scoreGE := ⟨fun a b => le_total b.2 a.2⟩

instance : IsTrans (String × ℕ) scoreGE := ⟨fun _ _ _ h1 h2 => le_trans h2 h1⟩

/-- Embedding of `fuzzywuzzy.process.extract(query, choices, scorer)` with its
default `limit=5`: score every choice, sort descending by score keeping the
original order of ties (stability of `sorted(..., reverse=True)`), and keep
the first five. -/
def process_extract (score : String → String → ℕ) (query : String)
    (choices : List String) : List (String × ℕ) :=
  (List.insertionSort scoreGE (choices.map fun c => (c, score query c))).take 5

/-- The candidate stored for one order by the dict comprehension
`{order: match[0] for order in possibilities for match in possibilities[order]
if match[1] > 65}`: successive matches above the threshold overwrite the same
key, so the stored candidate is the last above-threshold entry of the
extract output. -/
def resultFor (score : String → String → ℕ) (choices : List String)
    (order : String) : Option String :=
  (((process_extract score order choices).filter (fun m => 65 < m.2)).getLast?).map Prod.fst

/-- Keys of a Python dict built by comprehension over `l`: first occurrence
order, no duplicates. -/
def dictKeys (l : List String) : List String :=
  l.foldl (fun acc o => if o ∈ acc then acc else acc ++ [o]) []

/-- Embedding of `compare_orders_with_screening_list`: the result maps each
order it retains to the candidate selected by `resultFor`; orders with no
candidate scoring strictly above 65 are absent. -/
def compare_orders_with_screening_list (score : String → String → ℕ)
    (ns_list screening_list : List String) : List (String × String) :=
  (dictKeys ns_list).filterMap fun o => (resultFor score screening_list o).map (fun c => (o, c))

/-! Embedding of the site-code dictionary build in
`ImportJIRADataIntoSalesforce.py` (`main`, line 46). -/

/-- A row returned by `fetch_salesforce_data` for the `sitetracker__Site__c`
query, keyed by the tuple `('Id', 'Name', 'companyname_Site_Code__c')`. -/
structure SiteRow where
  Id : String
  Name : String
  companyname_Site_Code__c : String
deriving DecidableEq, Repr

/-- Key-value insertion into a Python dict modelled as an association list in
insertion order: an existing key is overwritten in place, a new key is
appended. -/
def pyDictInsert (m : List (String × String)) (k v : String) : List (String × String) :=
  if m.any (fun p => p.1 = k) then m.map (fun p => if p.1 = k then (k, v) else p)
  else m ++ [(k, v)]

/-- Embedding of the dict comprehension
`{row['companyname_Site_Code__c']: row['Name'] for row in fetch_salesforce_data(...)}`:
rows are inserted in order, later rows with the same site code overwriting
earlier ones. No other output (in particular no warning) is produced. -/
def SitecompanynameCodesNames_dict (rows : List SiteRow) : List (String × String) :=
  rows.foldl (fun m row => pyDictInsert m row.companyname_Site_Code__c row.Name) []

/-! Embedding of `get_survey_monkey_data` from
`ImportSurveyMonkeyDataIntoSalesforce.py`. Each HTTP response is an input;
the pair returned records both the recipient rows collected and the trace of
page numbers actually requested in the paging loop. -/

/-- The `mail_status` object of a message-stats response (integer flags). -/
structure MailStatus where
  sent : ℤ
  opened : ℤ
  not_sent : ℤ
  opted_out : ℤ
  bounced : ℤ
  link_clicked : ℤ
deriving DecidableEq, Repr

/-- The `survey_response_status` object of a message-stats response. -/
structure SurveyResponseStatus where
  completely_responded : ℤ
  not_responded : ℤ
  partially_responded : ℤ
deriving DecidableEq, Repr

/-- A message-stats payload; each key may be absent. -/
structure MsgStats where
  survey_response_status : Option SurveyResponseStatus
  mail_status : Option MailStatus
deriving DecidableEq, Repr

/-- One entry of a recipients response. -/
structure Recipient where
  id : String
  email : String
deriving DecidableEq, Repr

/-- One message of a page: its id plus the outcomes of its two sub-requests,
where `none` models a `requests.ConnectionError` (the `except ... continue`
branches) and a missing or empty `data` key in the recipients response is the
empty list. -/
structure SMMessage where
  id : String
  stats : Option MsgStats
  recipients : Option (List Recipient)
deriving DecidableEq, Repr

/-- One row appended to `collectors_messages_recipients_list`. -/
structure SMRecord where
  recipient_email : String
  message_id : String
  recipient_id : String
  last_email_status : String
deriving DecidableEq, Repr

/-- The status string built from a stats payload: the `' -> '`-joined mail
statuses whose flag is 1, then `' -> '`, then the space-joined survey response
statuses whose flag is 1. -/
def lastEmailStatus (st : MsgStats) : String :=
  let srs :=
    match st.survey_response_status with
    | none => ""
    | some s =>
      String.intercalate " " (([("Responded to Survey", s.completely_responded),
        ("Not Responded to Survey", s.not_responded),
        ("Responded to Partial Survey", s.partially_responded)].filter
          (fun p => p.2 = 1)).map Prod.fst)
  let ms :=
    match st.mail_status with
    | none => ""
    | some m =>
      String.intercalate " -> " (([("Email Sent", m.sent),
        ("Email Opened", m.opened),
        ("Email not Sent", m.not_sent),
        ("Opt Out from Survey Emails", m.opted_out),
        ("Email Bounced", m.bounced),
        ("Survey Link Clicked", m.link_clicked)].filter
          (fun p => p.2 = 1)).map Prod.fst)
  ms ++ " -> " ++ srs

/-- Processing of one message inside a page: a connection error on the stats
request or on the recipients request skips the message (`continue`);
otherwise one row is built, taking the first recipient when present. -/
def processMessage (msg : SMMessage) : Option SMRecord :=
  match msg.stats with
  | none => none
  | some st =>
    match msg.recipients with
    | none => none
    | some recs =>
      let rid := match recs with | [] => "" | r :: _ => r.id
      let remail := match recs with | [] => "" | r :: _ => r.email
      some { recipient_email := remail, message_id := msg.id, recipient_id := rid,
             last_email_status := lastEmailStatus st }

/-- A page response: a connection error (`except requests.ConnectionError:
... continue`), or an HTTP response with its status code and the optional
`data` list of messages. -/
inductive PageResp where
  | connError : PageResp
  | resp (status_code : ℕ) (data : Option (List SMMessage)) : PageResp

/-- The `for each_page in range(1, max_page_number + 1)` loop of
`get_survey_monkey_data`: arguments are the next page number and the count of
pages still in range. A connection error skips the page; a 429 status breaks
out of the loop; otherwise the page's messages (when a `data` key is present)
are processed in order. The second component records the page numbers
requested. -/
def pagesLoop (pages : ℕ → PageResp) : ℕ → ℕ → (List SMRecord × List ℕ)
  | _, 0 => ([], [])
  | p, n + 1 =>
    match pages p with
    | .connError =>
      let r := pagesLoop pages (p + 1) n
      (r.1, p :: r.2)
    | .resp sc body =>
      if sc = 429 then ([], [p])
      else
        let here := match body with
          | none => []
          | some msgs => msgs.filterMap processMessage
        let r := pagesLoop pages (p + 1) n
        (here ++ r.1, p :: r.2)

/-- The preliminary `page=1&per_page=1` request: a connection error or a
response whose body may contain an `error` key. -/
inductive PrelimResp where
  | connError : PrelimResp
  | resp (hasError : Bool) : PrelimResp

/-- Embedding of `get_survey_monkey_data`: a connection error or an `error`
body on the preliminary request returns an empty list without entering the
paging loop; otherwise pages 1 through 7 are walked by `pagesLoop`. -/
def get_survey_monkey_data (prelim : PrelimResp) (pages : ℕ → PageResp) :
    List SMRecord × List ℕ :=
  match prelim with
  | .connError => ([], [])
  | .resp hasError => if hasError then ([], []) else pagesLoop pages 1 7

/-! Embedding of the `MySQLRpts` write methods from `utils/helpers.py`. The
outcome of each underlying cursor operation is an input (`Except` value);
`pyTry` is the `try: ... except Exception: pass` wrapper. -/

/-- The `try: body except Exception as e: pass` pattern: any raised exception
is discarded and the method falls through to `finally` and returns `None`. -/
def pyTry (body : Except String Unit) : Except String Unit :=
  match body with
  | .error _ => .ok ()
  | .ok u => .ok u

namespace MySQLRpts

/-- Embedding of `MySQLRpts.exec_simple`: `cursor.execute(stmt)` then
`connection.commit()`, both inside the swallowing `try`. -/
def exec_simple (execRes commitRes : Except String Unit) : Except String Unit :=
  pyTry (do
    let _ ← execRes
    commitRes)

/-- Embedding of `MySQLRpts.insert_data`: `cursor.executemany(stmt, data)`
then `connection.commit()`, both inside the swallowing `try`. -/
def insert_data (execManyRes commitRes : Except String Unit) : Except String Unit :=
  pyTry (do
    let _ ← execManyRes
    commitRes)

/-- Embedding of `MySQLRpts.etl_log`: when `max_date` is passed, the
statement data includes `convert_datetime(max_date, for_insert=True)`, which
is evaluated before the `try` block — its outcome `convRes` (the result of
`dateutil.parser.parse` on a non-datetime argument) propagates to the caller
when it is an error. The execute/commit pair is inside the swallowing `try`. -/
def etl_log (max_date : Option String) (convRes : Except String String)
    (execRes commitRes : Except String Unit) : Except String Unit :=
  match max_date with
  | some _ =>
    match convRes with
    | .error e => .error e
    | .ok _ => pyTry (do
        let _ ← execRes
        commitRes)
  | none => pyTry (do
      let _ ← execRes
      commitRes)

end MySQLRpts

/-! Theorems for the individual claims. -/

/-- Claim C9, counterexample. The claim states that `get_all_dynamo_data`
returns the first page's items if and only if the scan completes in a single
page, and that a paginated scan returns only items of later pages. With a
first page holding one item and one continuation page holding no items, the
scan paginates and yet the function returns exactly the first page's items. -/
theorem C9_counterexample :
    get_all_dynamo_data ["a"] [([] : List String)] = ["a"] ∧
      "a" ∈ get_all_dynamo_data ["a"] [([] : List String)] ∧
      ([([] : List String)] : List (List String)) ≠ [] := by
  refine ⟨rfl, ?_, by simp⟩
  simp [get_all_dynamo_data]

/-- Claim C9, amended: `get_all_dynamo_data` returns the concatenation of the
items of the second and subsequent pages whenever that concatenation is
nonempty — in which case every returned item comes from a later page and the
first page is discarded — and returns the first page's items whenever the
later pages contribute no item (in particular for a single-page scan). -/
theorem C9_amended {α : Type} (firstPage : List α) (laterPages : List (List α)) :
    (laterPages.flatten = [] → get_all_dynamo_data firstPage laterPages = firstPage) ∧
    (laterPages.flatten ≠ [] →
      get_all_dynamo_data firstPage laterPages = laterPages.flatten ∧
        ∀ x ∈ get_all_dynamo_data firstPage laterPages, x ∈ laterPages.flatten) := by
  constructor
  · intro h
    simp [get_all_dynamo_data, h]
  · intro h
    have : ¬ laterPages.flatten.isEmpty := by
      simpa [List.isEmpty_iff] using h
    constructor
    · simp [get_all_dynamo_data, this]
    · intro x hx
      simpa [get_all_dynamo_data, this] using hx

/-- Claim C9, witness for the amended theorem at concrete pages. -/
theorem C9_amended_witness :
    get_all_dynamo_data ["a"] ([] : List (List String)) = ["a"] ∧
      get_all_dynamo_data ["a"] [["b"]] = ["b"] := by
  refine ⟨(C9_amended ["a"] ([] : List (List String))).1 rfl, ?_⟩
  exact ((C9_amended ["a"] [["b"]]).2 (by simp)).1

/-- Claim C10, counterexample. The claim states that every `MySQLRpts` write
method returns normally for every input. In `etl_log` the
`convert_datetime(max_date, for_insert=True)` call is evaluated while building
the statement data, before the `try` block, so a `max_date` value that
`dateutil.parser.parse` rejects raises to the caller. -/
theorem C10_counterexample :
    MySQLRpts.etl_log (some "not a date") (.error "ValueError") (.ok ()) (.ok ()) ≠
      .ok () := by
  simp [MySQLRpts.etl_log]

/-- Claim C10, amended: `exec_simple` and `insert_data` return normally for
every outcome of statement execution and commit, and so does `etl_log`
whenever it is called without `max_date` or with a `max_date` whose datetime
conversion succeeds; only a failing conversion (which happens outside the
`try` block) propagates. -/
theorem C10_amended (execRes commitRes : Except String Unit)
    (convRes : Except String String) (s v : String) :
    MySQLRpts.exec_simple execRes commitRes = .ok () ∧
      MySQLRpts.insert_data execRes commitRes = .ok () ∧
      MySQLRpts.etl_log none convRes execRes commitRes = .ok () ∧
      MySQLRpts.etl_log (some s) (.ok v) execRes commitRes = .ok () := by
  cases execRes <;> cases commitRes <;> exact ⟨rfl, rfl, rfl, rfl⟩


/-- Association-list lookup finds the head pair when the key matches. -/
theorem lookup_cons_self {β : Type} (k : String) (b : β) (t : List (String × β)) :
    List.lookup k ((k, b) :: t) = some b := by
  simp [List.lookup_cons]

/-- Association-list lookup skips the head pair when the key differs. -/
theorem lookup_cons_ne {β : Type} {k pk : String} (b : β) (t : List (String × β))
    (h : k ≠ pk) : List.lookup k ((pk, b) :: t) = List.lookup k t := by
  simp [List.lookup_cons, beq_false_of_ne h]

/-- Overwriting every pair keyed `k'` in place does not change the lookup of a
different key. -/
theorem lookup_map_replace {k k' : String} (v : String) (h : k ≠ k') :
    ∀ t : List (String × String),
      List.lookup k (t.map (fun p => if p.1 = k' then (k', v) else p)) = List.lookup k t
  | [] => rfl
  | p :: t => by
    obtain ⟨pk, pv⟩ := p
    rw [List.map_cons]
    by_cases hp : (pk, pv).1 = k'
    · rw [if_pos hp, lookup_cons_ne v _ h, lookup_map_replace v h t,
        lookup_cons_ne pv t (fun hc => h (hc.trans hp))]
    · rw [if_neg hp]
      by_cases hk : k = pk
      · subst hk
        rw [lookup_cons_self, lookup_cons_self]
      · rw [lookup_cons_ne pv _ hk, lookup_cons_ne pv _ hk, lookup_map_replace v h t]

/-- Appending a pair with a different key does not change the lookup. -/
theorem lookup_append_ne {k k' : String} (v : String) (h : k ≠ k') :
    ∀ m : List (String × String), List.lookup k (m ++ [(k', v)]) = List.lookup k m
  | [] => by
    rw [List.nil_append, lookup_cons_ne v [] h]
  | p :: t => by
    obtain ⟨pk, pv⟩ := p
    rw [List.cons_append]
    by_cases hk : k = pk
    · subst hk
      rw [lookup_cons_self, lookup_cons_self]
    · rw [lookup_cons_ne pv _ hk, lookup_cons_ne pv _ hk, lookup_append_ne v h t]

/-- When the key occurs in the list, overwriting it in place makes its lookup
return the new value. -/
theorem lookup_map_replace_self {k : String} (v : String) :
    ∀ t : List (String × String), t.any (fun p => p.1 = k) →
      List.lookup k (t.map (fun p => if p.1 = k then (k, v) else p)) = some v
  | p :: t, h => by
    obtain ⟨pk, pv⟩ := p
    rw [List.map_cons]
    by_cases hp : (pk, pv).1 = k
    · rw [if_pos hp, lookup_cons_self]
    · rw [if_neg hp,
        lookup_cons_ne pv _ (fun hc => hp (by simpa using hc.symm)),
        lookup_map_replace_self v t (by simpa [List.any_cons, hp] using h)]

/-- When the key does not occur in the list, appending it makes its lookup
return the appended value. -/
theorem lookup_append_self {k : String} (v : String) :
    ∀ m : List (String × String), ¬ m.any (fun p => p.1 = k) = true →
      List.lookup k (m ++ [(k, v)]) = some v
  | [], _ => by
    rw [List.nil_append, lookup_cons_self]
  | p :: t, h => by
    obtain ⟨pk, pv⟩ := p
    rw [List.cons_append,
      lookup_cons_ne pv _ (fun hc => h (by simp [List.any_cons, hc.symm])),
      lookup_append_self v t (fun hc => h (by simp [List.any_cons, hc]))]

/-- Lookup of a key is unchanged by `pyDictInsert` of a different key. -/
theorem lookup_pyDictInsert_ne (m : List (String × String)) {k k' : String} (v : String)
    (h : k ≠ k') : List.lookup k (pyDictInsert m k' v) = List.lookup k m := by
  unfold pyDictInsert
  split
  · exact lookup_map_replace v h m
  · exact lookup_append_ne v h m

/-- Lookup of the inserted key after `pyDictInsert` finds the new value. -/
theorem lookup_pyDictInsert_eq (m : List (String × String)) (k v : String) :
    List.lookup k (pyDictInsert m k v) = some v := by
  unfold pyDictInsert
  split
  case isTrue h => exact lookup_map_replace_self v m h
  case isFalse h => exact lookup_append_self v m h

/-- Auxiliary: `getLast?` of a cons with a nonempty tail is `getLast?` of
the tail. -/
theorem getLast?_cons_of_ne {α : Type} (a : α) {l : List α} (h : l ≠ []) :
    (a :: l).getLast? = l.getLast? := by
  cases l with
  | nil => exact absurd rfl h
  | cons b t => simp [List.getLast?_cons_cons]

/-- Lookup characterization of the site-code dictionary fold, generalised over
the starting accumulator. -/
theorem lookup_siteFold (rows : List SiteRow) (m : List (String × String)) (k : String) :
    List.lookup k
        (rows.foldl (fun m row => pyDictInsert m row.companyname_Site_Code__c row.Name) m) =
      Option.orElse
        (((rows.filter (fun r => r.companyname_Site_Code__c = k)).getLast?).map SiteRow.Name)
        (fun _ => List.lookup k m) := by
  induction rows generalizing m with
  | nil => simp [Option.orElse]
  | cons r rest ih =>
    simp only [List.foldl_cons]
    rw [ih]
    by_cases hr : r.companyname_Site_Code__c = k
    · have hfilter :
          (r :: rest).filter (fun r => r.companyname_Site_Code__c = k) =
            r :: rest.filter (fun r => r.companyname_Site_Code__c = k) := by
        simp [List.filter_cons, hr]
      rw [hfilter]
      cases hlast : (rest.filter (fun r => r.companyname_Site_Code__c = k)).getLast? with
      | none =>
        have hnil : rest.filter (fun r => r.companyname_Site_Code__c = k) = [] := by
          simpa [List.getLast?_eq_none_iff] using hlast
        rw [hnil]
        subst hr
        simp [Option.orElse, lookup_pyDictInsert_eq]
      | some x =>
        have hne : rest.filter (fun r => r.companyname_Site_Code__c = k) ≠ [] := by
          intro hc
          rw [hc] at hlast
          simp at hlast
        rw [getLast?_cons_of_ne r hne, hlast]
        simp [Option.orElse]
    · have hfilter :
          (r :: rest).filter (fun r => r.companyname_Site_Code__c = k) =
            rest.filter (fun r => r.companyname_Site_Code__c = k) := by
        simp [List.filter_cons, hr]
      rw [hfilter, lookup_pyDictInsert_ne m r.Name (fun hc => hr hc.symm)]

/-- Claim C5, counterexample. The claim states that a duplicated key in the
target set yields exactly one data-quality warning and a deterministic
first-seen match, never a silent overwrite. The dict comprehension on line 46
of `ImportJIRADataIntoSalesforce.py` produces no warning of any kind and maps
the duplicated site code `SC01` to the `Name` of the last row, not the
first-seen one. -/
theorem C5_counterexample :
    SitecompanynameCodesNames_dict
        [{ Id := "i1", Name := "A", companyname_Site_Code__c := "SC01" },
         { Id := "i2", Name := "B", companyname_Site_Code__c := "SC01" }] = [("SC01", "B")] ∧
      List.lookup "SC01"
          (SitecompanynameCodesNames_dict
            [{ Id := "i1", Name := "A", companyname_Site_Code__c := "SC01" },
             { Id := "i2", Name := "B", companyname_Site_Code__c := "SC01" }]) ≠
        some "A" := by
  constructor
  · rfl
  · decide

/-- Claim C5, amended: duplicate site codes are silently resolved by
overwriting — the dictionary maps every site code to the `Name` of the
last-seen row carrying it (deterministic last-seen, not first-seen), and the
build emits no data-quality warning (it produces nothing but the mapping). -/
theorem C5_amended (rows : List SiteRow) (k : String) :
    List.lookup k (SitecompanynameCodesNames_dict rows) =
      (((rows.filter (fun r => r.companyname_Site_Code__c = k)).getLast?).map
        SiteRow.Name) := by
  have h := lookup_siteFold rows [] k
  unfold SitecompanynameCodesNames_dict
  rw [h]
  cases ((rows.filter (fun r => r.companyname_Site_Code__c = k)).getLast?).map SiteRow.Name with
  | none => simp [Option.orElse]
  | some v => simp [Option.orElse]

/-- The last element of a list that is pairwise descending by score has the
minimum score of the list. -/
theorem getLast_score_min :
    ∀ {l : List (String × ℕ)}, l.Pairwise scoreGE →
      ∀ {x : String × ℕ}, l.getLast? = some x → ∀ p ∈ l, x.2 ≤ p.2
  | [], _, x, hx => by simp at hx
  | [a], _, x, hx => by
    have hxa : a = x := by simpa using hx
    subst hxa
    intro p hp
    have hpa : p = a := by simpa using hp
    subst hpa
    exact le_refl _
  | a :: b :: t, hp, x, hx => by
    rw [List.getLast?_cons_cons] at hx
    have htail := getLast_score_min (List.Pairwise.of_cons hp) hx
    intro p hmem
    rcases List.mem_cons.mp hmem with h | h
    · subst h
      have hx_mem : x ∈ b :: t := List.mem_of_getLast?_eq_some hx
      exact (List.pairwise_cons.mp hp).1 x hx_mem
    · exact htail p h

/-- Claim C3: with the hard-coded strict threshold `match[1] > 65` on line 80
of `ExportControlSaleforcceAccountValidation.py`, a pair of strings scoring 66
appears as a match of the comparator while a pair scoring exactly 65 yields no
match. -/
theorem C3_threshold (score : String → String → ℕ) (o c : String) :
    (score o c = 66 → compare_orders_with_screening_list score [o] [c] = [(o, c)]) ∧
      (score o c = 65 → compare_orders_with_screening_list score [o] [c] = []) := by
  constructor <;> intro h <;>
    simp [compare_orders_with_screening_list, dictKeys, resultFor, process_extract,
      List.insertionSort, List.orderedInsert, h]

/-- Claim C3, witness: the comparator evaluated on concrete pairs scoring 66
and 65. -/
theorem C3_threshold_witness :
    compare_orders_with_screening_list (fun _ _ => 66) ["acme corp"] ["acne corp"] =
        [("acme corp", "acne corp")] ∧
      compare_orders_with_screening_list (fun _ _ => 65) ["acme corp"] ["acne corp"] = [] :=
  ⟨(C3_threshold (fun _ _ => 66) "acme corp" "acne corp").1 rfl,
    (C3_threshold (fun _ _ => 65) "acme corp" "acne corp").2 rfl⟩

/-- Claim C4, counterexample. The claim states that the candidate returned for
a record is the best-scoring candidate above the threshold. With two
candidates scoring 90 and 70, `process.extract` ranks the 90-candidate first,
yet the dict comprehension keeps overwriting the record's entry, so the
comparator returns the 70-candidate. -/
theorem C4_counterexample :
    (process_extract (fun _ cand => if cand = "alpha ltd" then 90 else 70)
        "query co" ["alpha ltd", "beta ltd"]).head? = some ("alpha ltd", 90) ∧
      resultFor (fun _ cand => if cand = "alpha ltd" then 90 else 70)
        ["alpha ltd", "beta ltd"] "query co" = some "beta ltd" ∧
      compare_orders_with_screening_list (fun _ cand => if cand = "alpha ltd" then 90 else 70)
        ["query co"] ["alpha ltd", "beta ltd"] = [("query co", "beta ltd")] ∧
      resultFor (fun _ cand => if cand = "alpha ltd" then 90 else 70)
        ["alpha ltd", "beta ltd"] "query co" ≠ some "alpha ltd" := by
  refine ⟨?_, ?_, ?_, ?_⟩ <;> decide

/-- Claim C4, amended: when fuzzy matching is used, the candidate returned for
a record that has at least one candidate scoring above the threshold is the
last above-threshold entry of the scorer's descending output — the
worst-scoring candidate above the threshold among the top five — rather than
the best-scoring one; a record with such a candidate is always matched. -/
theorem C4_amended (score : String → String → ℕ) (choices : List String) (o : String) :
    (∀ c, resultFor score choices o = some c →
      ∃ s, (c, s) ∈ process_extract score o choices ∧ 65 < s ∧
        ∀ p ∈ process_extract score o choices, 65 < p.2 → s ≤ p.2) ∧
      ((∃ p ∈ process_extract score o choices, 65 < p.2) →
        resultFor score choices o ≠ none) := by
  have hpair : (process_extract score o choices).Pairwise scoreGE := by
    unfold process_extract
    exact List.Pairwise.sublist (List.take_sublist _ _)
      (List.sorted_insertionSort scoreGE (choices.map fun c => (c, score o c)))
  have hpairF :
      ((process_extract score o choices).filter (fun m => 65 < m.2)).Pairwise scoreGE :=
    List.Pairwise.sublist (List.filter_sublist _) hpair
  constructor
  · intro c hc
    unfold resultFor at hc
    obtain ⟨m, hm, hmc⟩ := Option.map_eq_some'.mp hc
    have hmF : m ∈ (process_extract score o choices).filter (fun m => 65 < m.2) :=
      List.mem_of_getLast?_eq_some hm
    have hmem := List.mem_filter.mp hmF
    subst hmc
    refine ⟨m.2, ?_, ?_, ?_⟩
    · rw [Prod.mk.eta]
      exact hmem.1
    · exact of_decide_eq_true hmem.2
    · intro p hpL hp65
      have hpF : p ∈ (process_extract score o choices).filter (fun m => 65 < m.2) :=
        List.mem_filter.mpr ⟨hpL, decide_eq_true hp65⟩
      exact getLast_score_min hpairF hm p hpF
  · rintro ⟨p, hpL, hp65⟩ hnone
    unfold resultFor at hnone
    have hF : (process_extract score o choices).filter (fun m => 65 < m.2) = [] :=
      List.getLast?_eq_none_iff.mp (Option.map_eq_none'.mp hnone)
    have hpF : p ∈ (process_extract score o choices).filter (fun m => 65 < m.2) :=
      List.mem_filter.mpr ⟨hpL, decide_eq_true hp65⟩
    rw [hF] at hpF
    simp at hpF

/-- Claim C4, witness for the amended theorem: the returned candidate for a
concrete scorer with candidates scoring 90 and 70 is the 70-scoring one, which
is above the threshold and minimal among above-threshold candidates. -/
theorem C4_amended_witness :
    ∃ s, ("beta ltd", s) ∈ process_extract
        (fun _ cand => if cand = "alpha ltd" then 90 else 70) "query co"
        ["alpha ltd", "beta ltd"] ∧ 65 < s ∧
      ∀ p ∈ process_extract (fun _ cand => if cand = "alpha ltd" then 90 else 70)
          "query co" ["alpha ltd", "beta ltd"], 65 < p.2 → s ≤ p.2 :=
  (C4_amended (fun _ cand => if cand = "alpha ltd" then 90 else 70)
    ["alpha ltd", "beta ltd"] "query co").1 "beta ltd" (by decide)


/-- The `data.object` payload of a raw event whose `amount` key is absent. -/
def payloadAbsentC6 : RawObjectPayload :=
  { object := some "invoice", id := some (.str "in_1"), amount := none,
    amount_due := some (.num 0), amount_refunded := some (.num 0) }

/-- The same payload but with an explicit JSON null `amount`. -/
def payloadNullC6 : RawObjectPayload :=
  { payloadAbsentC6 with amount := some Value.null }

/-- A raw Stripe event whose `data.object` has no `amount` key at all. -/
def rawAbsentC6 : RawEvent :=
  { id := some "evt_1", created := some 100, type := some "invoice.created",
    customer_id := some "cus_1", dataObject := some payloadAbsentC6 }

/-- The same raw Stripe event but with an explicit JSON null `amount`. -/
def rawNullC6 : RawEvent :=
  { rawAbsentC6 with dataObject := some payloadNullC6 }

/-- The stage row produced for `rawAbsentC6`: the missing `amount` became the
string sentinel `'null'`. -/
def stageAbsentC6 : StageRecord :=
  { id := "evt_1", created := 100, type := "invoice.created", object := "invoice",
    customer_id := "cus_1", amount := .str "null", amount_due := .num 0,
    amount_refunded := .num 0, object_event_id := .str "in_1" }

/-- The stage row produced for `rawNullC6`: the explicit null `amount` stayed
null. -/
def stageNullC6 : StageRecord :=
  { stageAbsentC6 with amount := .null }

/-- Claim C6, counterexample. The claim states that downstream processing
keeps the absent-field sentinel distinguishable from an explicit source null.
The two stage rows below differ exactly in that way (sentinel `'null'` string
versus explicit null), yet `prep_data` maps the sentinel to `None`, producing
identical downstream rows, so the distinction is lost. -/
theorem C6_counterexample :
    data_summary_insert rawAbsentC6 = .ok stageAbsentC6 ∧
      data_summary_insert rawNullC6 = .ok stageNullC6 ∧
      stageAbsentC6 ≠ stageNullC6 ∧
      stageAbsentC6.amount = .str "null" ∧
      stageNullC6.amount = .null ∧
      prep_data_mysql (fun s => s) (fun z => toString z)
          [enrich_email (fun _ => none) stageAbsentC6] =
        prep_data_mysql (fun s => s) (fun z => toString z)
          [enrich_email (fun _ => none) stageNullC6] := by
  refine ⟨by rfl, by rfl, by decide, by rfl, by rfl, by rfl⟩

/-- Claim C6, amended: normalisation does not throw on missing optional
fields — whenever the required fields (`id`, `created`, `type`,
`data.object.object`) are present, `data_summary_insert` succeeds and each
missing optional field receives the string sentinel `'null'`, which at the
staging layer differs from an explicit null; but the downstream `prep_data`
normalisation maps the sentinel to the same value as an explicit null, so the
two are not distinguishable downstream. -/
theorem C6_amended (e : RawEvent) (i t o : String) (c : ℤ) (p : RawObjectPayload)
    (hid : e.id = some i) (hc : e.created = some c) (ht : e.type = some t)
    (hd : e.dataObject = some p) (ho : p.object = some o) :
    ∃ s : StageRecord, data_summary_insert e = .ok s ∧
      (e.customer_id = none → s.customer_id = "null") ∧
      (p.amount = none → s.amount = .str "null") ∧
      (p.amount_due = none → s.amount_due = .str "null") ∧
      (p.amount_refunded = none → s.amount_refunded = .str "null") ∧
      (p.id = none → s.object_event_id = .str "null") ∧
      normValue (.str "null") = normValue .null := by
  refine ⟨{ id := i, created := c, type := t, object := o,
            customer_id := orNullStr e.customer_id,
            amount := orNullVal p.amount, amount_due := orNullVal p.amount_due,
            amount_refunded := orNullVal p.amount_refunded,
            object_event_id := orNullVal p.id }, ?_, ?_, ?_, ?_, ?_, ?_, rfl⟩
  · simp only [data_summary_insert, hid, hc, ht, hd, ho]
  · intro h
    rw [h]
    rfl
  · intro h
    rw [h]
    rfl
  · intro h
    rw [h]
    rfl
  · intro h
    rw [h]
    rfl
  · intro h
    rw [h]
    rfl

/-- Claim C6, witness for the amended theorem at the concrete event with the
`amount` key missing. -/
theorem C6_amended_witness :
    ∃ s : StageRecord, data_summary_insert rawAbsentC6 = .ok s ∧
      (rawAbsentC6.customer_id = none → s.customer_id = "null") ∧
      (payloadAbsentC6.amount = none → s.amount = .str "null") ∧
      (payloadAbsentC6.amount_due = none → s.amount_due = .str "null") ∧
      (payloadAbsentC6.amount_refunded = none → s.amount_refunded = .str "null") ∧
      (payloadAbsentC6.id = none → s.object_event_id = .str "null") ∧
      normValue (.str "null") = normValue .null :=
  C6_amended rawAbsentC6 "evt_1" "invoice.created" "invoice" 100 payloadAbsentC6
    rfl rfl rfl rfl rfl

/-- Explicit rounding to two decimal places, as the specification prescribes
for money conversions. Stated from the spec's words for comparison with the
code's conversion; the code contains no such step. -/
def round2 (q : ℚ) : ℚ := ((round (q * 100) : ℤ) : ℚ) / 100

/-- Characterization of `Int.log 2` by its zpow bounds. -/
theorem log_eq_of_bounds {q : ℚ} (hq : 0 < q) (e : ℤ)
    (h1 : (2 : ℚ) ^ e ≤ q) (h2 : q < (2 : ℚ) ^ (e + 1)) : Int.log 2 q = e := by
  have hle : e ≤ Int.log 2 q := (Int.zpow_le_iff_le_log (by norm_num) hq).mp h1
  have hlt : ¬ (e + 1 ≤ Int.log 2 q) := by
    intro hc
    have h3 := (Int.zpow_le_iff_le_log (by norm_num) hq).mpr hc
    push_cast at h3
    linarith
  omega

/-- The binade of one cent: `1/100` lies between `2 ^ (-7)` and `2 ^ (-6)`. -/
theorem log_one_div_100 : Int.log 2 |(1 : ℚ) / 100| = -7 := by
  rw [abs_of_pos (by norm_num)]
  refine log_eq_of_bounds (by norm_num) (-7) ?_ ?_
  · rw [show (-7 : ℤ) = -(7 : ℕ) by norm_num, zpow_neg, zpow_natCast]
    norm_num
  · rw [show (-7 + 1 : ℤ) = -(6 : ℕ) by norm_num, zpow_neg, zpow_natCast]
    norm_num

/-- The binary64 value of one cent: the nearest double to `1/100` is
`5764607523034235 × 2 ^ (-59)`, which differs from `1/100`. -/
theorem roundDouble_one_div_100 :
    roundDouble ((1 : ℚ) / 100) = 5764607523034235 / 576460752303423488 := by
  unfold roundDouble
  rw [if_neg (by norm_num), log_one_div_100]
  have hdiv : ((1 : ℚ) / 100) / (2 : ℚ) ^ (-7 - 52 : ℤ) = 576460752303423488 / 100 := by
    rw [show (-7 - 52 : ℤ) = -(59 : ℕ) by norm_num, zpow_neg, zpow_natCast]
    norm_num
  rw [hdiv]
  have hround : round ((576460752303423488 : ℚ) / 100) = 5764607523034235 := by
    rw [round_eq]
    norm_num [Int.floor_eq_iff]
  rw [hround, show (-7 - 52 : ℤ) = -(59 : ℕ) by norm_num, zpow_neg, zpow_natCast]
  norm_num

/-- Integers below `2 ^ 53` are exactly representable: `roundDouble` is the
identity on them (the `float(x)` conversion step is exact for cent amounts). -/
theorem roundDouble_intCast (c : ℤ) (h53 : |c| < 2 ^ 53) : roundDouble (c : ℚ) = c := by
  rcases eq_or_ne c 0 with rfl | hc
  · simp [roundDouble]
  · have hcq : (c : ℚ) ≠ 0 := by exact_mod_cast hc
    unfold roundDouble
    rw [if_neg hcq]
    have habs : (0 : ℚ) < |(c : ℚ)| := abs_pos.mpr hcq
    have hLle : Int.log 2 |(c : ℚ)| ≤ 52 := by
      by_contra hcon
      push_neg at hcon
      have h1 : ((2 : ℚ)) ^ (53 : ℤ) ≤ (2 : ℚ) ^ (Int.log 2 |(c : ℚ)|) :=
        zpow_le_zpow_right₀ (by norm_num) (by omega)
      have h2 : (2 : ℚ) ^ (Int.log 2 |(c : ℚ)|) ≤ |(c : ℚ)| := by
        have h := Int.zpow_log_le_self (b := 2) (by norm_num) habs
        push_cast at h
        exact h
      have h3 : |(c : ℚ)| < (2 : ℚ) ^ (53 : ℤ) := by
        rw [← Int.cast_abs]
        have h4 : ((|c| : ℤ) : ℚ) < ((2 ^ 53 : ℤ) : ℚ) := by exact_mod_cast h53
        calc ((|c| : ℤ) : ℚ) < ((2 ^ 53 : ℤ) : ℚ) := h4
          _ = (2 : ℚ) ^ (53 : ℤ) := by push_cast; norm_num
      linarith
    set L := Int.log 2 |(c : ℚ)| with hL
    have hkey : (c : ℚ) / (2 : ℚ) ^ (L - 52) = ((c * 2 ^ (52 - L).toNat : ℤ) : ℚ) := by
      push_cast
      rw [← zpow_natCast (2 : ℚ) (52 - L).toNat, Int.toNat_of_nonneg (by omega),
        div_eq_mul_inv, ← zpow_neg, neg_sub]
    rw [hkey, round_intCast]
    push_cast
    rw [← zpow_natCast (2 : ℚ) (52 - L).toNat, Int.toNat_of_nonneg (by omega),
      mul_assoc, ← zpow_add₀ (by norm_num : (2 : ℚ) ≠ 0)]
    norm_num

/-- Correct rounding: `roundDouble` is within half an ulp of its argument. -/
theorem roundDouble_err (q : ℚ) (hq : q ≠ 0) :
    |roundDouble q - q| ≤ (2 : ℚ) ^ (Int.log 2 |q| - 53) := by
  unfold roundDouble
  rw [if_neg hq]
  set e : ℤ := Int.log 2 |q| - 52 with he
  have h2e : (0 : ℚ) < (2 : ℚ) ^ e := zpow_pos (by norm_num) e
  have hsplit :
      ((round (q / (2 : ℚ) ^ e) : ℤ) : ℚ) * (2 : ℚ) ^ e - q =
        (((round (q / (2 : ℚ) ^ e) : ℤ) : ℚ) - q / (2 : ℚ) ^ e) * (2 : ℚ) ^ e := by
    rw [sub_mul, div_mul_cancel₀ _ (ne_of_gt h2e)]
  rw [hsplit, abs_mul, abs_of_pos h2e]
  have hround : |((round (q / (2 : ℚ) ^ e) : ℤ) : ℚ) - q / (2 : ℚ) ^ e| ≤ 1 / 2 := by
    rw [abs_sub_comm]
    exact abs_sub_round (q / (2 : ℚ) ^ e)
  calc |((round (q / (2 : ℚ) ^ e) : ℤ) : ℚ) - q / (2 : ℚ) ^ e| * (2 : ℚ) ^ e
      ≤ (1 / 2) * (2 : ℚ) ^ e :=
        mul_le_mul_of_nonneg_right hround (le_of_lt h2e)
    _ = (2 : ℚ) ^ (Int.log 2 |q| - 53) := by
        rw [he, show Int.log 2 |q| - 53 = (Int.log 2 |q| - 52) + (-1) by omega,
          zpow_add₀ (by norm_num : (2 : ℚ) ≠ 0)]
        ring_nf

/-- The value the pipeline writes for a one-cent amount. -/
theorem prepAmount_one : prepAmount 1 = 5764607523034235 / 576460752303423488 := by
  unfold prepAmount
  rw [roundDouble_intCast 1 (by decide), show ((1 : ℤ) : ℚ) = 1 by norm_num]
  exact roundDouble_one_div_100

/-- An event record with all money fields equal to one cent. -/
def recC7 : EventRecord :=
  { id := "evt_7", created := 100, type := "charge.succeeded", object := "charge",
    customer_id := "cus_7", amount := .num 1, amount_due := .num 1,
    amount_refunded := .num 1, object_event_id := .str "ch_1", email := some "a@b.c" }

/-- Claim C7, counterexample. The claim states that the converted money value
is explicitly rounded to 2 decimal places and therefore equals the exact cent
amount divided by 100. For a one-cent amount the Salesforce branch of
`prep_data` writes the raw binary64 quotient `float(1)/100`, which differs
from the exact two-decimal value `0.01`. -/
theorem C7_counterexample :
    ((prep_sf_record (fun _ => some { id := "003", accountId := none })
        (fun z => toString z) recC7).toOption.join).map SFRow.Amount__c =
      some (prepAmount 1) ∧
      prepAmount 1 = 5764607523034235 / 576460752303423488 ∧
      round2 ((1 : ℚ) / 100) = 1 / 100 ∧
      prepAmount 1 ≠ round2 ((1 : ℚ) / 100) := by
  have hr2 : round2 ((1 : ℚ) / 100) = 1 / 100 := by
    unfold round2
    norm_num
  refine ⟨rfl, prepAmount_one, hr2, ?_⟩
  rw [prepAmount_one, hr2]
  norm_num

/-- Claim C7, amended: for every nonzero cent amount below `2 ^ 53` the
conversion divides by 100 with no explicit rounding step — the value written
is the binary64 rounding of `cents/100`, which is within half an ulp of the
exact quotient but need not equal the exact two-decimal value. -/
theorem C7_amended (c : ℤ) (h0 : c ≠ 0) (h53 : |c| < 2 ^ 53) :
    prepAmount c = roundDouble ((c : ℚ) / 100) ∧
      |prepAmount c - (c : ℚ) / 100| ≤ (2 : ℚ) ^ (Int.log 2 |(c : ℚ) / 100| - 53) := by
  have heq : prepAmount c = roundDouble ((c : ℚ) / 100) := by
    unfold prepAmount
    rw [roundDouble_intCast c h53]
  refine ⟨heq, ?_⟩
  rw [heq]
  refine roundDouble_err _ ?_
  exact div_ne_zero (by exact_mod_cast h0) (by norm_num)

/-- Claim C7, witness for the amended theorem at a one-cent amount. -/
theorem C7_amended_witness :
    prepAmount 1 = roundDouble ((1 : ℤ) / 100 : ℚ) ∧
      |prepAmount 1 - ((1 : ℤ) : ℚ) / 100| ≤
        (2 : ℚ) ^ (Int.log 2 |((1 : ℤ) : ℚ) / 100| - 53) := by
  have h := C7_amended 1 (by decide) (by decide)
  exact ⟨by exact_mod_cast h.1, h.2⟩

/-- Whether a page response carries HTTP status 429 (rate limited). -/
def is429 : PageResp → Bool
  | .connError => false
  | .resp sc _ => sc == 429

/-- Every page number in the request trace of the paging loop is at least the
starting page. -/
theorem pagesLoop_trace_ge (pages : ℕ → PageResp) :
    ∀ (n p : ℕ), ∀ j ∈ (pagesLoop pages p n).2, p ≤ j
  | 0, p => by
    intro j hj
    simp [pagesLoop] at hj
  | n + 1, p => by
    intro j hj
    cases hpg : pages p with
    | connError =>
      simp only [pagesLoop, hpg] at hj
      rcases List.mem_cons.mp hj with h | h
      · omega
      · have := pagesLoop_trace_ge pages n (p + 1) j h
        omega
    | resp sc body =>
      simp only [pagesLoop, hpg] at hj
      by_cases hsc : sc = 429
      · rw [if_pos hsc] at hj
        have : j = p := by simpa using hj
        omega
      · rw [if_neg hsc] at hj
        rcases List.mem_cons.mp hj with h | h
        · omega
        · have := pagesLoop_trace_ge pages n (p + 1) j h
          omega

/-- A message of page one and a message of page three used by the C8
counterexample. -/
def m1C8 : SMMessage :=
  { id := "m1", stats := some { survey_response_status := none, mail_status := none },
    recipients := some [] }

/-- The page-three message: a healthy message with one recipient. -/
def m3C8 : SMMessage :=
  { id := "m3", stats := some { survey_response_status := none, mail_status := none },
    recipients := some [{ id := "r3", email := "x@y.z" }] }

/-- A response schedule where page 1 succeeds, page 2 is rate limited and
page 3 would succeed with a processable message. -/
def pagesC8 : ℕ → PageResp := fun p =>
  if p = 1 then .resp 200 (some [m1C8])
  else if p = 2 then .resp 429 none
  else .resp 200 (some [m3C8])

/-- Claim C8, counterexample. The claim states that a rate-limited batch is
retried with backoff and only that batch is marked failed, with remaining
batches still processed. Under `pagesC8` the loop requests page 2 exactly
once (no retry appears in the trace) and then breaks: page 3 is never
requested and its record — which `processMessage` would produce — is absent
from the result. -/
theorem C8_counterexample :
    get_survey_monkey_data (.resp false) pagesC8 =
      ([{ recipient_email := "", message_id := "m1", recipient_id := "",
          last_email_status := " -> " }], [1, 2]) ∧
      processMessage m3C8 =
        some { recipient_email := "x@y.z", message_id := "m3", recipient_id := "r3",
               last_email_status := " -> " } ∧
      (3 : ℕ) ∉ [1, 2] := by
  refine ⟨by decide, by decide, by decide⟩

/-- Claim C8, amended: when some page within the seven-page window responds
with status 429 and no earlier page in the window does, the loop stops at
that page — every requested page number is at most the 429 page, no page is
ever requested twice (there is no retry), and the records returned are
exactly the records of the pages strictly before the 429 page. -/
theorem C8_amended (pages : ℕ → PageResp) (n p k : ℕ) (hpk : p ≤ k) (hlt : k < p + n)
    (h429 : is429 (pages k) = true)
    (hfirst : ∀ j, p ≤ j → j < k → is429 (pages j) = false) :
    (∀ j ∈ (pagesLoop pages p n).2, j ≤ k) ∧
      (pagesLoop pages p n).2.Nodup ∧
      (pagesLoop pages p n).1 = (pagesLoop pages p (k - p)).1 := by
  induction n generalizing p with
  | zero => exact absurd hlt (by omega)
  | succ n ih =>
    rcases Nat.eq_or_lt_of_le hpk with heq | hplt
    · subst heq
      cases hpg : pages p with
      | connError =>
        rw [hpg] at h429
        simp [is429] at h429
      | resp sc body =>
        rw [hpg] at h429
        have hsc : sc = 429 := by simpa [is429] using h429
        subst hsc
        refine ⟨?_, ?_, ?_⟩
        · intro j hj
          simp only [pagesLoop, hpg, if_pos] at hj
          have : j = p := by simpa using hj
          omega
        · simp only [pagesLoop, hpg, if_pos]
          simp
        · simp only [pagesLoop, hpg, if_pos, Nat.sub_self]
    · have hne : is429 (pages p) = false := hfirst p le_rfl hplt
      have ihres := ih (p + 1) (by omega) (by omega)
        (fun j hj1 hj2 => hfirst j (by omega) hj2)
      have hkp : k - p = (k - (p + 1)) + 1 := by omega
      cases hpg : pages p with
      | connError =>
        refine ⟨?_, ?_, ?_⟩
        · intro j hj
          simp only [pagesLoop, hpg] at hj
          rcases List.mem_cons.mp hj with h | h
          · omega
          · exact ihres.1 j h
        · simp only [pagesLoop, hpg]
          refine List.Pairwise.cons ?_ ihres.2.1
          intro j hj
          have := pagesLoop_trace_ge pages n (p + 1) j hj
          omega
        · rw [hkp]
          simp only [pagesLoop, hpg]
          exact ihres.2.2
      | resp sc body =>
        have hsc : ¬ sc = 429 := by
          rw [hpg] at hne
          simpa [is429] using hne
        refine ⟨?_, ?_, ?_⟩
        · intro j hj
          simp only [pagesLoop, hpg] at hj
          rw [if_neg hsc] at hj
          rcases List.mem_cons.mp hj with h | h
          · omega
          · exact ihres.1 j h
        · simp only [pagesLoop, hpg]
          rw [if_neg hsc]
          refine List.Pairwise.cons ?_ ihres.2.1
          intro j hj
          have := pagesLoop_trace_ge pages n (p + 1) j hj
          omega
        · rw [hkp]
          simp only [pagesLoop, hpg]
          rw [if_neg hsc, if_neg hsc, ihres.2.2]

/-- Claim C8, witness for the amended theorem: the schedule of the
counterexample, with the 429 on page 2 inside the window starting at page 1. -/
theorem C8_amended_witness :
    (∀ j ∈ (pagesLoop pagesC8 1 7).2, j ≤ 2) ∧
      (pagesLoop pagesC8 1 7).2.Nodup ∧
      (pagesLoop pagesC8 1 7).1 = (pagesLoop pagesC8 1 (2 - 1)).1 :=
  C8_amended pagesC8 7 1 2 (by decide) (by decide) (by decide)
    (fun j hj1 hj2 => by
      interval_cases j
      · decide)


/-- A `stripe_object_stage` row for the driver counterexamples. -/
def objRecC1 : StageRecord :=
  { id := "obj1", created := 50, type := "t", object := "invoice",
    customer_id := "null", amount := .null, amount_due := .null,
    amount_refunded := .null, object_event_id := .null }

/-- The single fetched stage record of the driver counterexamples: timestamp
100, no Stripe customer. -/
def stageRecC1 : StageRecord :=
  { id := "e1", created := 100, type := "charge.succeeded", object := "charge",
    customer_id := "null", amount := .num 0, amount_due := .num 0,
    amount_refunded := .num 0, object_event_id := .str "x" }

/-- A run input where one record (timestamp 100, no Stripe customer) is
fetched, the MySQL event insert fails (and is swallowed), the Salesforce
branch produces nothing to upsert, and the raw-object insert fails too: no
record is confirmed written anywhere, yet the run completes. -/
def inpC1 : RunInput :=
  { stageFirst := [stageRecC1],
    stageLater := [],
    emailLookup := fun _ => none,
    md5 := fun s => s,
    fmt := fun z => toString z,
    fmtSF := fun z => toString z,
    contactLookup := fun _ => none,
    mysqlInsertOk := false,
    maxDateQueryOk := true,
    sfUpsertThrows := false,
    objFirst := [objRecC1],
    objLater := [],
    objInsertOk := false }

/-- Claim C1, counterexample. The claim states that the recorded watermark
never exceeds the maximum timestamp among records whose sink write was
confirmed successful, and that fetched-but-unwritten records do not
contribute. Under `inpC1` every write outcome is a (swallowed) failure, so no
record is confirmed written, yet the run completes and records the watermark
100 taken from the fetched record. -/
theorem C1_counterexample :
    runStripeSync inpC1 = { auditAttempts := [some 100], completed := true } ∧
      writtenTimestamps inpC1 = [] := by
  refine ⟨by decide, by decide⟩

/-- Claim C1, amended: for every run that fetches at least one stage record
and completes, the watermark recorded in the audit log is the maximum
`created` timestamp over ALL fetched records, regardless of which writes were
confirmed successful — fetched-but-unwritten records do contribute. -/
theorem C1_amended (inp : RunInput)
    (hne : (get_all_dynamo_data inp.stageFirst inp.stageLater).isEmpty = false)
    (hc : (runStripeSync inp).completed = true) :
    (runStripeSync inp).auditAttempts =
      [some (maxCreated ((get_all_dynamo_data inp.stageFirst inp.stageLater).map
        (enrich_email inp.emailLookup)))] := by
  have hchar :
      (runStripeSync inp).completed = true ∧
          (runStripeSync inp).auditAttempts =
            [some (maxCreated ((get_all_dynamo_data inp.stageFirst inp.stageLater).map
              (enrich_email inp.emailLookup)))] ∨
        (runStripeSync inp).completed = false ∧
          (runStripeSync inp).auditAttempts = [] := by
    simp only [runStripeSync, hne, Bool.false_eq_true, if_false]
    cases hprep : prep_data_salesforce inp.contactLookup inp.fmtSF
        ((get_all_dynamo_data inp.stageFirst inp.stageLater).map
          (enrich_email inp.emailLookup)) with
    | error e =>
      by_cases hq : inp.maxDateQueryOk = true <;> simp [hq]
    | ok sf_data =>
      by_cases hq : inp.maxDateQueryOk = true <;>
        by_cases hsf : sf_data.isEmpty = true <;>
          by_cases hthrow : inp.sfUpsertThrows = true <;>
            by_cases hobj : (get_all_dynamo_data inp.objFirst inp.objLater).isEmpty = true <;>
              simp [hq, hsf, hthrow, hobj]
  rcases hchar with ⟨h1, h2⟩ | ⟨h1, h2⟩
  · exact h2
  · rw [hc] at h1
    exact absurd h1 (by simp)

/-- Claim C1, witness for the amended theorem at the concrete completing run. -/
theorem C1_amended_witness :
    (runStripeSync inpC1).auditAttempts =
      [some (maxCreated ((get_all_dynamo_data inpC1.stageFirst inpC1.stageLater).map
        (enrich_email inpC1.emailLookup)))] :=
  C1_amended inpC1 (by decide) (by decide)

/-- A run input that finds no data at all. -/
def inpC2 : RunInput :=
  { stageFirst := [],
    stageLater := [],
    emailLookup := fun _ => none,
    md5 := fun s => s,
    fmt := fun z => toString z,
    fmtSF := fun z => toString z,
    contactLookup := fun _ => none,
    mysqlInsertOk := true,
    maxDateQueryOk := true,
    sfUpsertThrows := false,
    objFirst := [objRecC1],
    objLater := [],
    objInsertOk := true }

/-- The same run input with data present but the watermark query failing, so
the run dies on the `NoneType` subscript before reaching the audit log. -/
def inpC2abort : RunInput :=
  { inpC2 with
    stageFirst := [stageRecC1],
    maxDateQueryOk := false }

/-- Claim C2, counterexample. The claim states that a run that finds no data
to process writes no audit-log row. Lines 50-53 of the driver do the
opposite: on empty data they call `etl_log` (one audit attempt, without a
watermark) and exit — and no batch write was ever confirmed successful. -/
theorem C2_counterexample :
    runStripeSync inpC2 = { auditAttempts := [(none : Option ℤ)], completed := true } ∧
      writtenTimestamps inpC2 = [] := by
  refine ⟨by decide, by decide⟩

/-- Claim C2, amended: the driver attempts exactly one audit-log insert on
every run that completes — including the empty-data early exit, which logs a
row without a watermark — and attempts none on a run aborted by an uncaught
exception. -/
theorem C2_amended (inp : RunInput) :
    ((runStripeSync inp).completed = true → (runStripeSync inp).auditAttempts.length = 1) ∧
      ((runStripeSync inp).completed = false → (runStripeSync inp).auditAttempts = []) := by
  have hchar :
      (runStripeSync inp).completed = true ∧ (runStripeSync inp).auditAttempts.length = 1 ∨
        (runStripeSync inp).completed = false ∧ (runStripeSync inp).auditAttempts = [] := by
    simp only [runStripeSync]
    cases hprep : prep_data_salesforce inp.contactLookup inp.fmtSF
        ((get_all_dynamo_data inp.stageFirst inp.stageLater).map
          (enrich_email inp.emailLookup)) with
    | error e =>
      by_cases hd : (get_all_dynamo_data inp.stageFirst inp.stageLater).isEmpty = true <;>
        by_cases hq : inp.maxDateQueryOk = true <;> simp [hd, hq]
    | ok sf_data =>
      by_cases hd : (get_all_dynamo_data inp.stageFirst inp.stageLater).isEmpty = true <;>
        by_cases hq : inp.maxDateQueryOk = true <;>
          by_cases hsf : sf_data.isEmpty = true <;>
            by_cases hthrow : inp.sfUpsertThrows = true <;>
              by_cases hobj : (get_all_dynamo_data inp.objFirst inp.objLater).isEmpty = true <;>
                simp [hd, hq, hsf, hthrow, hobj]
  rcases hchar with ⟨h1, h2⟩ | ⟨h1, h2⟩ <;> constructor <;> intro h <;> simp_all

/-- Claim C2, witness for the amended theorem: the empty-data run attempts
exactly one audit row, and the aborted run attempts none. -/
theorem C2_amended_witness :
    (runStripeSync inpC2).auditAttempts.length = 1 ∧
      (runStripeSync inpC2abort).auditAttempts = [] :=
  ⟨(C2_amended inpC2).1 (by decide), (C2_amended inpC2abort).2 (by decide)⟩
